import Mathlib

/-!
Shallow embedding of the graph-construction engine and optimiser-state layer
of the `bullet` repository (crates/bullet_core/src/graph/builder.rs,
crates/bullet_core/src/optimiser/adam.rs, src/trainer/default/quant.rs),
together with theorems checking the natural-language specification against it.

Rust `panic!`/`assert!` aborts are modelled as error values returned alongside
the builder state as it stood at the moment of the abort: every mutation the
Rust code performs before the panicking check is reflected in the returned
state, and no mutation after it is.
-/

namespace Bullet

/-- Modelled from the spec: `Shape` (crates/bullet_core/src/shape.rs is not
under src/) is an immutable (rows, cols) descriptor with an element-count
query; the spec calls it external and trivial. -/
structure Shape where
  rows : Nat
  cols : Nat
deriving DecidableEq, Repr

def Shape.new (rows cols : Nat) : Shape := ⟨rows, cols⟩

def Shape.size (s : Shape) : Nat := s.rows * s.cols

def Shape.transpose (s : Shape) : Shape := ⟨s.cols, s.rows⟩

/-- `Node` from builder.rs: a lightweight copyable handle
(arena index + shape + optional sparsity).  `sparse` is
`Option<NonZeroUsize>` in Rust; positivity is enforced at creation. -/
structure Node where
  idx : Nat
  shape : Shape
  sparse : Option Nat
deriving DecidableEq, Repr

/-- Modelled from the spec: the typed shape-mismatch error of
crates/bullet_core/src/graph/operation.rs (not under src/), which "names the
offending operand shapes".  builder.rs itself references the
`MismatchedInputShapes` constructor. -/
inductive GraphBuilderErrorType where
  | MismatchedInputShapes (shapes : List Shape)
  | InvalidSliceIndices (shape : Shape) (lo hi : Nat)
deriving DecidableEq, Repr

/-- Modelled from the spec: the `Operation` enum of
crates/bullet_core/src/graph/operation.rs (not under src/).  The canonical
variants and their shape rules follow spec §4.1; operand lists follow the
constructor usage visible in crates/bullet_lib/src/frontend.rs. -/
inductive Operation where
  | Affine (w x b : Node)
  | Matmul (a : Node) (ta : Bool) (b : Node) (tb : Bool)
  | Concat (a b : Node)
  | Slice (x : Node) (lo hi : Nat)
  | LinearCombination (alpha : Float) (a : Node) (beta : Float) (b : Node)
  | PowerError (a b : Node) (power : Float)
  | SoftmaxCrossEntropyLoss (a b : Node)
  | ReduceAcrossBatch (a : Node)

/-- Modelled from the spec: each operation "declares exactly which operand
Nodes it reads (used by GraphBuilder to update the root set)". -/
def Operation.nodes : Operation → List Node
  | .Affine w x b => [w, x, b]
  | .Matmul a _ b _ => [a, b]
  | .Concat a b => [a, b]
  | .Slice x _ _ => [x]
  | .LinearCombination _ a _ b => [a, b]
  | .PowerError a b _ => [a, b]
  | .SoftmaxCrossEntropyLoss a b => [a, b]
  | .ReduceAcrossBatch a => [a]

/-- Modelled from the spec: shape inference per §4.1.  `Affine(W,x,b)` requires
`W.cols == x.rows` with output `(W.rows, x.cols)`; `Matmul` requires inner
dimensions to match after the requested transposition; `Concat` requires equal
column count and sums row counts; `Slice` requires `0 <= lo < hi <= rows`;
`LinearCombination` requires identical shapes; the loss/reduction variants
always yield the scalar shape (1,1). -/
def Operation.output_shape : Operation → Except GraphBuilderErrorType Shape
  | .Affine w x _ =>
    if w.shape.cols = x.shape.rows then .ok (Shape.new w.shape.rows x.shape.cols)
    else .error (.MismatchedInputShapes [w.shape, x.shape])
  | .Matmul a ta b tb =>
    let sa := if ta then a.shape.transpose else a.shape
    let sb := if tb then b.shape.transpose else b.shape
    if sa.cols = sb.rows then .ok (Shape.new sa.rows sb.cols)
    else .error (.MismatchedInputShapes [a.shape, b.shape])
  | .Concat a b =>
    if a.shape.cols = b.shape.cols then .ok (Shape.new (a.shape.rows + b.shape.rows) a.shape.cols)
    else .error (.MismatchedInputShapes [a.shape, b.shape])
  | .Slice x lo hi =>
    if lo < hi ∧ hi ≤ x.shape.rows then .ok (Shape.new (hi - lo) x.shape.cols)
    else .error (.InvalidSliceIndices x.shape lo hi)
  | .LinearCombination _ a _ b =>
    if a.shape = b.shape then .ok a.shape
    else .error (.MismatchedInputShapes [a.shape, b.shape])
  | .PowerError _ _ _ => .ok (Shape.new 1 1)
  | .SoftmaxCrossEntropyLoss _ _ => .ok (Shape.new 1 1)
  | .ReduceAcrossBatch _ => .ok (Shape.new 1 1)

/-- The Rust sentinel `usize::MAX` used for the placeholder `own` node. -/
def usizeMax : Nat := 18446744073709551615

/-- `NodeData` from builder.rs: the arena-resident record. -/
structure NodeData where
  id : Option String
  size : Nat
  requires_grad : Bool
  parent_operation : Option Operation
  own : Node

/-- `NodeData::new` from builder.rs: the `own` handle starts as a
`usize::MAX` placeholder and is filled in at insertion time. -/
def NodeData.new (id : Option String) (parent_operation : Option Operation)
    (size : Nat) (requires_grad : Bool) (sparse : Option Nat) : NodeData :=
  { id := id, size := size, requires_grad := requires_grad,
    parent_operation := parent_operation,
    own := { idx := usizeMax, shape := Shape.new usizeMax usizeMax, sparse := sparse } }

/-- The failure modes of the builder.  In Rust every one of these is a
`panic!`/`assert!` abort (builder.rs never returns `Err` itself); here they
are explicit error values. -/
inductive BuilderPanic where
  | duplicateId (id : String)
  | invalidNnz
  | shapeError (e : GraphBuilderErrorType)
  | multipleRoots (n : Nat)
  | outputIsInput
  | outputIsWeights
  | outputNotScalar
  | outputSizeNotOne
  | missingNode
  | missingId
  | allocationFailed
deriving DecidableEq, Repr

/-- Set-insert on a duplicate-free list, mirroring `HashSet::insert`
(no-op when the element is already present). -/
def insertSet {α : Type} [DecidableEq α] (x : α) (l : List α) : List α :=
  if x ∈ l then l else l ++ [x]

/-- Set-removal, mirroring `HashSet::remove`. -/
def removeSet {α : Type} [DecidableEq α] (x : α) (l : List α) : List α :=
  l.filter (fun y => decide (y ≠ x))

/-- `GraphBuilder` from builder.rs.  The Rust `HashSet` fields are modelled as
duplicate-free lists with set-semantics insert/remove, so that membership and
cardinality agree with the hash sets. -/
structure GraphBuilder where
  nodes : List NodeData
  roots : List Node
  inputs : List Node
  weights : List Node
  ids : List String

/-- `GraphBuilder::default()`: the empty builder. -/
def GraphBuilder.empty : GraphBuilder := ⟨[], [], [], [], []⟩

/-- The unconditional tail of `GraphBuilder::create_node` (everything after
the id-uniqueness assert): allocate the next arena index, fill in `own`,
remove the operands of the parent operation from the root set, push the
record and insert the new node as a root. -/
def GraphBuilder.create_node_inner (s : GraphBuilder) (data : NodeData)
    (shape : Shape) (sparse : Option Nat) : Except BuilderPanic Node × GraphBuilder :=
  let node : Node := { idx := s.nodes.length, shape := shape, sparse := sparse }
  let data' := { data with own := node }
  let roots' :=
    match data.parent_operation with
    | some op => op.nodes.foldl (fun acc p => removeSet p acc) s.roots
    | none => s.roots
  (Except.ok node,
    { s with nodes := s.nodes ++ [data'], roots := insertSet node roots' })

/-- `GraphBuilder::create_node` from builder.rs.  The Rust code runs
`assert!(self.ids.insert(id.to_string()))`: on a duplicate id the set is left
unchanged and the process aborts before any node is pushed. -/
def GraphBuilder.create_node (s : GraphBuilder) (data : NodeData)
    (shape : Shape) (sparse : Option Nat) : Except BuilderPanic Node × GraphBuilder :=
  match data.id with
  | some id =>
    if id ∈ s.ids then (Except.error (BuilderPanic.duplicateId id), s)
    else GraphBuilder.create_node_inner { s with ids := s.ids ++ [id] } data shape sparse
  | none => GraphBuilder.create_node_inner s data shape sparse

/-- `GraphBuilder::create_dense_input` from builder.rs. -/
def GraphBuilder.create_dense_input (s : GraphBuilder) (id : String)
    (shape : Shape) : Except BuilderPanic Node × GraphBuilder :=
  match s.create_node (NodeData.new (some id) none shape.size false none) shape none with
  | (Except.ok node, s') => (Except.ok node, { s' with inputs := insertSet node s'.inputs })
  | (Except.error e, s') => (Except.error e, s')

/-- `GraphBuilder::create_sparse_input` from builder.rs.  The Rust code runs
`NonZeroUsize::try_from(nnz).unwrap()`, which panics when `nnz = 0`, before
`create_node` executes. -/
def GraphBuilder.create_sparse_input (s : GraphBuilder) (id : String)
    (shape : Shape) (nnz : Nat) : Except BuilderPanic Node × GraphBuilder :=
  if nnz = 0 then (Except.error BuilderPanic.invalidNnz, s)
  else
    match s.create_node (NodeData.new (some id) none shape.size false none) shape (some nnz) with
    | (Except.ok node, s') => (Except.ok node, { s' with inputs := insertSet node s'.inputs })
    | (Except.error e, s') => (Except.error e, s')

/-- `GraphBuilder::create_weights` from builder.rs. -/
def GraphBuilder.create_weights (s : GraphBuilder) (id : String)
    (shape : Shape) : Except BuilderPanic Node × GraphBuilder :=
  match s.create_node (NodeData.new (some id) none shape.size true none) shape none with
  | (Except.ok node, s') => (Except.ok node, { s' with weights := insertSet node s'.weights })
  | (Except.error e, s') => (Except.error e, s')

/-- `GraphBuilder::create_result_of_operation` from builder.rs: on a shape
validation failure the Rust code panics before constructing any `NodeData`. -/
def GraphBuilder.create_result_of_operation (s : GraphBuilder) (operation : Operation)
    (requires_grad : Bool) : Except BuilderPanic Node × GraphBuilder :=
  match operation.output_shape with
  | Except.ok shape =>
    s.create_node (NodeData.new none (some operation) shape.size requires_grad none) shape none
  | Except.error e => (Except.error (BuilderPanic.shapeError e), s)

/-- `Node::reshape` from builder.rs: a pure function on the `Node` value
(`self` is taken by value); the arena is untouched. -/
def Node.reshape (n : Node) (shape : Shape) : Except GraphBuilderErrorType Node :=
  if n.shape.size = shape.size then Except.ok { n with shape := shape }
  else Except.error (GraphBuilderErrorType.MismatchedInputShapes [n.shape, shape])

/-- Modelled from the spec: the device-resident `Tensor`
(crates/bullet_core/src/tensor.rs is not under src/) is "constructed by the
Graph from a NodeData plus a shared device handle"; only its constructor
arguments matter here. -/
structure Tensor where
  size : Nat
  requires_grad : Bool
  parent_operation : Option Operation
  own : Node

/-- `Graph` from builder.rs / spec §3: per-node tensors, the root handle and
the id→Node maps for inputs and weights. -/
structure Graph where
  nodes : List Tensor
  root : Node
  inputs : List (String × Node)
  weights : List (String × Node)

/-- The allocation loop of `build`: one `Tensor::new` per arena slot, each of
which may fail with a device error (modelled by the `alloc` parameter). -/
def allocAllTensors (alloc : NodeData → Option Tensor) : List NodeData → Option (List Tensor)
  | [] => some []
  | d :: ds =>
    match alloc d, allocAllTensors alloc ds with
    | some t, some ts => some (t :: ts)
    | _, _ => none

/-- The map-building loop of `build`: for each registered node, pair the id
copied out of the arena with the node.  The Rust `unwrap` on a missing arena
slot or missing id is a panic, modelled as `none`. -/
def GraphBuilder.collectNamed (s : GraphBuilder) : List Node → Option (List (String × Node))
  | [] => some []
  | n :: ns =>
    match (s.nodes[n.idx]?).bind NodeData.id, s.collectNamed ns with
    | some id, some rest => some ((id, n) :: rest)
    | _, _ => none

/-- `GraphBuilder::build` from builder.rs: the final validation gate (single
root, root requires grad, root not a weight, scalar root shape, root element
count 1, all asserted in that order), then per-node tensor allocation, then
the input/weight maps.  Tensor allocation is delegated to the external
device through `alloc`. -/
def GraphBuilder.build (s : GraphBuilder) (alloc : NodeData → Option Tensor) :
    Except BuilderPanic Graph :=
  match s.roots with
  | [root] =>
    match s.nodes[root.idx]? with
    | some data =>
      if data.requires_grad = true then
        if root ∈ s.weights then Except.error BuilderPanic.outputIsWeights
        else if root.shape = Shape.new 1 1 then
          if data.size = 1 then
            match allocAllTensors alloc s.nodes with
            | some ts =>
              match s.collectNamed s.inputs, s.collectNamed s.weights with
              | some ins, some ws => Except.ok { nodes := ts, root := root, inputs := ins, weights := ws }
              | _, _ => Except.error BuilderPanic.missingId
            | none => Except.error BuilderPanic.allocationFailed
          else Except.error BuilderPanic.outputSizeNotOne
        else Except.error BuilderPanic.outputNotScalar
      else Except.error BuilderPanic.outputIsInput
    | none => Except.error BuilderPanic.missingNode
  | rs => Except.error (BuilderPanic.multipleRoots rs.length)

/-- One public construction step on a `GraphBuilder`. -/
inductive Step where
  | dense (id : String) (shape : Shape)
  | sparse (id : String) (shape : Shape) (nnz : Nat)
  | weights (id : String) (shape : Shape)
  | oper (op : Operation) (requires_grad : Bool)

/-- The builder state after one step (a failing step leaves the state as the
panic found it). -/
def applyStep (s : GraphBuilder) : Step → GraphBuilder
  | .dense id shape => (s.create_dense_input id shape).2
  | .sparse id shape nnz => (s.create_sparse_input id shape nnz).2
  | .weights id shape => (s.create_weights id shape).2
  | .oper op rg => (s.create_result_of_operation op rg).2

/-- The builder state after a sequence of steps. -/
def runSteps (s : GraphBuilder) (steps : List Step) : GraphBuilder :=
  steps.foldl applyStep s

/-- A step is well-formed when every operand handle it passes was previously
handed out by the builder, i.e. its index is below the arena length.  This is
automatic for the public API, where `Node` values originate from the
builder. -/
def stepOkB (s : GraphBuilder) : Step → Bool
  | .oper op _ => op.nodes.all (fun p => p.idx < s.nodes.length)
  | _ => true

/-- A step sequence is well-formed when each step is, in the state it runs in. -/
def validRunB : GraphBuilder → List Step → Bool
  | _, [] => true
  | s, st :: rest => stepOkB s st && validRunB (applyStep s st) rest

/-- `p` is consumed by the arena record `d`: `d`'s producing operation lists
`p` as an operand. -/
def consumes (d : NodeData) (p : Node) : Prop :=
  match d.parent_operation with
  | some op => p ∈ op.nodes
  | none => False

/-- `p` has a consumer somewhere in the builder's arena. -/
def consumed (s : GraphBuilder) (p : Node) : Prop :=
  ∃ d ∈ s.nodes, consumes d p

/-- `n` is the own-handle of some arena record of `s`. -/
def ownNode (s : GraphBuilder) (n : Node) : Prop :=
  ∃ d ∈ s.nodes, d.own = n

/-- The root-set invariant of the builder: own-handles sit at their arena
index, every consumer's operands were handed out before it, and the root set
holds exactly the arena nodes without a consumer. -/
def InvRoots (s : GraphBuilder) : Prop :=
  (∀ (i : Nat) (d : NodeData), s.nodes[i]? = some d → d.own.idx = i) ∧
  (∀ d ∈ s.nodes, ∀ p, consumes d p → p.idx < d.own.idx) ∧
  (∀ n, n ∈ s.roots ↔ (ownNode s n ∧ ¬ consumed s n))

/-- A device that always allocates: `Tensor::new` packaging the constructor
arguments, never failing.  Used to exercise `build` at concrete inputs. -/
def allocAlways (d : NodeData) : Option Tensor :=
  some { size := d.size, requires_grad := d.requires_grad,
         parent_operation := d.parent_operation, own := d.own }

/-- A concrete two-step construction: one weight leaf, then a
`ReduceAcrossBatch` over it producing the scalar loss node. -/
def scalarLossSteps : List Step :=
  [Step.weights "w" (Shape.new 1 1),
   Step.oper (Operation.ReduceAcrossBatch { idx := 0, shape := Shape.new 1 1, sparse := none }) true]

/-- Modelled from the spec: `DenseMatrix` (crates/bullet_core/src/tensor.rs
is not under src/) is a device-resident buffer with an element-count query
`size()`, an optional batch dimension `batch_size()`, and raw contents. -/
structure DenseMatrix where
  size : Nat
  batchSize : Option Nat
  buf : List Float

/-- Modelled from the spec: `DenseMatrix::zeroed(device, size)` allocates a
zero-initialized parameter-shaped (no batch dimension) buffer. -/
def DenseMatrix.zeroed (size : Nat) : DenseMatrix :=
  { size := size, batchSize := none, buf := List.replicate size 0.0 }

/-- Modelled from the spec: `DenseMatrix::set_zero` zeroes the buffer
contents in place. -/
def DenseMatrix.set_zero (m : DenseMatrix) : DenseMatrix :=
  { m with buf := List.replicate m.buf.length 0.0 }

/-- Modelled from the spec: `DenseMatrix::load_from_slice(None, data)`
restores the buffer contents from a flat slice with no batch dimension. -/
def DenseMatrix.load_from_slice (m : DenseMatrix) (data : List Float) : DenseMatrix :=
  { m with size := data.length, batchSize := none, buf := data }

/-- `AdamParams` from adam.rs. -/
structure AdamParams where
  beta1 : Float
  beta2 : Float

/-- `AdamParams::default()` from adam.rs. -/
def AdamParams.default : AdamParams := { beta1 := 0.9, beta2 := 0.999 }

/-- `Adam` from adam.rs: the per-weight optimiser state. -/
structure Adam where
  momentum : DenseMatrix
  velocity : DenseMatrix
  params : AdamParams

/-- `Adam::new` from adam.rs. -/
def Adam.new (size : Nat) (default_params : AdamParams) : Adam :=
  { momentum := DenseMatrix.zeroed size, velocity := DenseMatrix.zeroed size,
    params := default_params }

/-- The signature of the external numeric kernel `D::adam`: given the size,
the four buffers and the scalar hyperparameters, it produces the updated
weight, momentum and velocity buffers.  The device is an external
collaborator, so the kernel is a parameter of the model. -/
def AdamKernel : Type :=
  Nat → List Float → List Float → List Float → List Float →
    Float → Float → Float → Float → List Float × List Float × List Float

/-- `Adam::update` from adam.rs.  The Rust code asserts, in order: weights
have no batch dimension, momentum has no batch dimension, velocity has no
batch dimension, momentum size equals weight size, velocity size equals
weight size — and then calls `D::adam`.  A failed assert is a panic before
any buffer is touched, modelled as `none`. -/
def Adam.update (a : Adam) (weights grads : DenseMatrix)
    (gradient_factor learning_rate : Float) (kernel : AdamKernel) :
    Option (Adam × DenseMatrix) :=
  if weights.batchSize = none then
    if a.momentum.batchSize = none then
      if a.velocity.batchSize = none then
        if weights.size = a.momentum.size then
          if weights.size = a.velocity.size then
            let r := kernel weights.size weights.buf grads.buf a.momentum.buf a.velocity.buf
              a.params.beta1 a.params.beta2 gradient_factor learning_rate
            some ({ a with momentum := { a.momentum with buf := r.2.1 },
                           velocity := { a.velocity with buf := r.2.2 } },
                  { weights with buf := r.1 })
          else none
        else none
      else none
    else none
  else none

/-- `Adam::reset` from adam.rs: zero both auxiliary buffers. -/
def Adam.reset (a : Adam) : Adam :=
  { a with momentum := a.momentum.set_zero, velocity := a.velocity.set_zero }

/-- `Adam::set_params` from adam.rs: replace the hyperparameters only. -/
def Adam.set_params (a : Adam) (params : AdamParams) : Adam :=
  { a with params := params }

/-- A kernel that returns the buffers unchanged, for exercising the
precondition gate of `Adam::update` in isolation. -/
def idKernel : AdamKernel := fun _ w _ m v _ _ _ _ => (w, m, v)

/-- One named record of a checkpoint file, as parsed by the external
`utils::load_weights_from_file` (not under src/): a weight identifier paired
with its flat buffer contents. -/
def CheckpointRecord : Type := String × List Float

/-- Lexicographic comparison of character sequences by code point, the order
Rust's `String: Ord` imposes (UTF-8 byte order coincides with code-point
order). -/
def charListLeB : List Char → List Char → Bool
  | [], _ => true
  | _ :: _, [] => false
  | c :: cs, d :: ds =>
    if c.toNat < d.toNat then true
    else if d.toNat < c.toNat then false
    else charListLeB cs ds

/-- Lexicographic order on the weight names of a checkpoint. -/
def strLeB (a b : String) : Bool := charListLeB a.data b.data

/-- Sort checkpoint records by name (a stable sort keyed on the identifier),
modelling `Vec::sort_by_key(|(id, _)| id.clone())` from adam.rs. -/
def sortByKey (l : List CheckpointRecord) : List CheckpointRecord :=
  List.insertionSort (fun a b => strLeB a.1 b.1 = true) l

/-- Update the named optimiser state in the collection, modelling
`map.get_mut(id1).unwrap()` followed by the two `load_from_slice` calls;
`none` models the unwrap panic for an unknown name. -/
def updateAdamMap (id : String) (mo ve : List Float) :
    List (String × Adam) → Option (List (String × Adam))
  | [] => none
  | (k, a) :: rest =>
    if k = id then
      some ((k, { a with momentum := a.momentum.load_from_slice mo,
                         velocity := a.velocity.load_from_slice ve }) :: rest)
    else (updateAdamMap id mo ve rest).map (fun r => (k, a) :: r)

/-- The pairing loop of `Adam::load_from_checkpoint`:
`momentum.iter().zip(velocity.iter())` with `assert_eq!(id1, id2)` on each
pair (a name mismatch panics, modelled as `none`); the zip stops at the
shorter list. -/
def loadPairs : List CheckpointRecord → List CheckpointRecord →
    List (String × Adam) → Option (List (String × Adam))
  | [], _, m => some m
  | _ :: _, [], m => some m
  | (id1, mo) :: ms, (id2, ve) :: vs, m =>
    if id1 = id2 then
      match updateAdamMap id1 mo ve m with
      | some m' => loadPairs ms vs m'
      | none => none
    else none

/-- `Adam::load_from_checkpoint` from adam.rs, applied to the records already
parsed from the momentum and velocity files: both record lists are sorted by
name, then paired. -/
def Adam.load_from_checkpoint (m : List (String × Adam))
    (momentum velocity : List CheckpointRecord) : Option (List (String × Adam)) :=
  loadPairs (sortByKey momentum) (sortByKey velocity) m

section Lemmas

variable {α : Type} [DecidableEq α]

theorem mem_insertSet {x y : α} {l : List α} : x ∈ insertSet y l ↔ x ∈ l ∨ x = y := by
  unfold insertSet
  split
  · rename_i h
    simp only [iff_self_or]
    rintro rfl
    exact h
  · simp

theorem mem_removeSet {x y : α} {l : List α} : x ∈ removeSet y l ↔ x ∈ l ∧ x ≠ y := by
  simp [removeSet]

theorem mem_foldl_removeSet {x : α} {ps l : List α} :
    x ∈ ps.foldl (fun acc p => removeSet p acc) l ↔ x ∈ l ∧ x ∉ ps := by
  induction ps generalizing l with
  | nil => simp
  | cons p ps ih =>
    simp only [List.foldl_cons, ih, mem_removeSet, List.mem_cons]
    tauto

end Lemmas

/-- The state returned by `create_node_inner` leaves `ids`, `inputs` and
`weights` untouched. -/
theorem create_node_inner_frame (s : GraphBuilder) (d : NodeData) (sh : Shape)
    (sp : Option Nat) :
    ((s.create_node_inner d sh sp).2).ids = s.ids ∧
    ((s.create_node_inner d sh sp).2).inputs = s.inputs ∧
    ((s.create_node_inner d sh sp).2).weights = s.weights ∧
    (s.create_node_inner d sh sp).1 =
      Except.ok { idx := s.nodes.length, shape := sh, sparse := sp } := by
  exact ⟨rfl, rfl, rfl, rfl⟩

/-- A successful `create_node` on a named record appends the id to `ids`. -/
theorem create_node_ok_ids (s : GraphBuilder) (d : NodeData) (sh : Shape) (sp : Option Nat)
    (n : Node) (s' : GraphBuilder) (hid : d.id.isSome)
    (h : s.create_node d sh sp = (Except.ok n, s')) : ∃ id, d.id = some id ∧ s'.ids = s.ids ++ [id] := by
  unfold GraphBuilder.create_node at h
  split at h
  · rename_i id hd
    split at h
    · simp at h
    · refine ⟨id, hd, ?_⟩
      have hs : s' = (({ s with ids := s.ids ++ [id] } : GraphBuilder).create_node_inner d sh sp).2 := by
        rw [h]
      rw [hs]
      rfl
  · rename_i hd
    rw [hd] at hid
    simp at hid

/-- C10 — `Node::reshape` succeeds, preserving index and sparsity, exactly
when the element counts agree; otherwise it reports the two offending
shapes.  It is a pure function of the `Node` value: no builder state is
involved. -/
theorem c10_reshape_iff_same_size (n : Node) (s2 : Shape) :
    (n.shape.size = s2.size →
      n.reshape s2 = Except.ok { idx := n.idx, shape := s2, sparse := n.sparse }) ∧
    (n.shape.size ≠ s2.size →
      n.reshape s2 = Except.error (GraphBuilderErrorType.MismatchedInputShapes [n.shape, s2])) := by
  constructor <;> intro h <;> simp [Node.reshape, h]

/-- Witness for C10 at a concrete node: (2,3) reshapes to (3,2) but not to (2,2). -/
theorem c10_reshape_witness :
    (Node.reshape { idx := 0, shape := Shape.new 2 3, sparse := none } (Shape.new 3 2) =
      Except.ok { idx := 0, shape := Shape.new 3 2, sparse := none }) ∧
    (Node.reshape { idx := 0, shape := Shape.new 2 3, sparse := none } (Shape.new 2 2) =
      Except.error (GraphBuilderErrorType.MismatchedInputShapes [Shape.new 2 3, Shape.new 2 2])) :=
  ⟨(c10_reshape_iff_same_size _ _).1 (by decide),
   (c10_reshape_iff_same_size _ _).2 (by decide)⟩

/-- C4 — whenever an operation's shape validation fails,
`create_result_of_operation` fails and returns the builder exactly as it was:
no node is inserted and the root set is untouched. -/
theorem c4_shape_failure_no_insert (s : GraphBuilder) (op : Operation) (rg : Bool)
    (e : GraphBuilderErrorType) (h : op.output_shape = Except.error e) :
    s.create_result_of_operation op rg = (Except.error (BuilderPanic.shapeError e), s) := by
  unfold GraphBuilder.create_result_of_operation
  rw [h]

/-- Witness for C4: a `Matmul` of two (2,3) operands (inner dimensions 3 and
2) fails on the empty builder and leaves it empty. -/
theorem c4_shape_failure_witness :
    GraphBuilder.create_result_of_operation GraphBuilder.empty
      (Operation.Matmul { idx := 0, shape := Shape.new 2 3, sparse := none } false
        { idx := 1, shape := Shape.new 2 3, sparse := none } false) true =
    (Except.error (BuilderPanic.shapeError
      (GraphBuilderErrorType.MismatchedInputShapes [Shape.new 2 3, Shape.new 2 3])),
     GraphBuilder.empty) :=
  c4_shape_failure_no_insert _ _ _ _ rfl

/-- A successful `create_weights` appends the id to the id set. -/
theorem create_weights_ok_ids (s : GraphBuilder) (id : String) (shape : Shape)
    (n : Node) (s' : GraphBuilder) (h : s.create_weights id shape = (Except.ok n, s')) :
    s'.ids = s.ids ++ [id] := by
  unfold GraphBuilder.create_weights at h
  split at h
  · rename_i node s₁ heq
    obtain ⟨id', hid', hids⟩ :=
      create_node_ok_ids s (NodeData.new (some id) none shape.size true none) shape none node s₁ rfl heq
    cases h
    cases hid'
    exact hids
  · simp at h

/-- A successful `create_dense_input` appends the id to the id set. -/
theorem create_dense_input_ok_ids (s : GraphBuilder) (id : String) (shape : Shape)
    (n : Node) (s' : GraphBuilder) (h : s.create_dense_input id shape = (Except.ok n, s')) :
    s'.ids = s.ids ++ [id] := by
  unfold GraphBuilder.create_dense_input at h
  split at h
  · rename_i node s₁ heq
    obtain ⟨id', hid', hids⟩ :=
      create_node_ok_ids s (NodeData.new (some id) none shape.size false none) shape none node s₁ rfl heq
    cases h
    cases hid'
    exact hids
  · simp at h

/-- A successful `create_sparse_input` appends the id to the id set. -/
theorem create_sparse_input_ok_ids (s : GraphBuilder) (id : String) (shape : Shape)
    (nnz : Nat) (n : Node) (s' : GraphBuilder)
    (h : s.create_sparse_input id shape nnz = (Except.ok n, s')) :
    s'.ids = s.ids ++ [id] := by
  unfold GraphBuilder.create_sparse_input at h
  split at h
  · simp at h
  · split at h
    · rename_i node s₁ heq
      obtain ⟨id', hid', hids⟩ :=
        create_node_ok_ids s (NodeData.new (some id) none shape.size false none) shape (some nnz) node s₁ rfl heq
      cases h
      cases hid'
      exact hids
    · simp at h

/-- C3 — registering an identifier that is already taken fails before any
node is added: the failing `create_weights` call returns the builder exactly
as it was (same arena, roots, inputs, weights, ids); and every successful
`create_weights` / `create_dense_input` / `create_sparse_input` call records
its id, so a second `create_weights` with the same id hits this failure. -/
theorem c3_duplicate_identifier (s : GraphBuilder) (id : String) (shape : Shape) :
    (id ∈ s.ids →
      s.create_weights id shape = (Except.error (BuilderPanic.duplicateId id), s)) ∧
    (∀ shape0 nnz n s',
      (s.create_weights id shape0 = (Except.ok n, s') ∨
       s.create_dense_input id shape0 = (Except.ok n, s') ∨
       s.create_sparse_input id shape0 nnz = (Except.ok n, s')) →
      id ∈ s'.ids) := by
  constructor
  · intro h
    unfold GraphBuilder.create_weights GraphBuilder.create_node
    simp [NodeData.new, h]
  · rintro shape0 nnz n s' (h | h | h)
    · rw [create_weights_ok_ids s id shape0 n s' h]; simp
    · rw [create_dense_input_ok_ids s id shape0 n s' h]; simp
    · rw [create_sparse_input_ok_ids s id shape0 nnz n s' h]; simp

/-- Witness for C3: after `create_weights "w"` on the empty builder, "w" is
recorded, and a second `create_weights "w"` fails leaving the builder
untouched. -/
theorem c3_duplicate_identifier_witness :
    "w" ∈ ((GraphBuilder.empty.create_weights "w" (Shape.new 1 2)).2).ids ∧
    ((GraphBuilder.empty.create_weights "w" (Shape.new 1 2)).2).create_weights "w" (Shape.new 3 3) =
      (Except.error (BuilderPanic.duplicateId "w"),
       (GraphBuilder.empty.create_weights "w" (Shape.new 1 2)).2) :=
  ⟨(c3_duplicate_identifier GraphBuilder.empty "w" (Shape.new 1 2)).2 (Shape.new 1 2) 1
      { idx := 0, shape := Shape.new 1 2, sparse := none }
      (GraphBuilder.empty.create_weights "w" (Shape.new 1 2)).2 (Or.inl rfl),
   (c3_duplicate_identifier _ "w" (Shape.new 3 3)).1 (by decide)⟩

/-- C9 — `create_sparse_input` with `nnz = 0` fails without registering
anything (the builder comes back exactly as it was); with positive `nnz` and
a fresh id it allocates a leaf node carrying that sparsity, whose arena
record has `requires_grad = false`, and registers it in `inputs`. -/
theorem c9_sparse_input_nnz (s : GraphBuilder) (id : String) (shape : Shape) (nnz : Nat) :
    (s.create_sparse_input id shape 0 = (Except.error BuilderPanic.invalidNnz, s)) ∧
    (0 < nnz → id ∉ s.ids →
      s.create_sparse_input id shape nnz =
        (Except.ok { idx := s.nodes.length, shape := shape, sparse := some nnz },
         { nodes := s.nodes ++ [{ id := some id, size := shape.size, requires_grad := false, parent_operation := none, own := { idx := s.nodes.length, shape := shape, sparse := some nnz } }],
           roots := insertSet { idx := s.nodes.length, shape := shape, sparse := some nnz } s.roots,
           inputs := insertSet { idx := s.nodes.length, shape := shape, sparse := some nnz } s.inputs,
           weights := s.weights,
           ids := s.ids ++ [id] }) ∧
      { idx := s.nodes.length, shape := shape, sparse := some nnz } ∈
        ((s.create_sparse_input id shape nnz).2).inputs) := by
  constructor
  · unfold GraphBuilder.create_sparse_input
    simp
  · intro h1 h2
    have hne : nnz ≠ 0 := Nat.pos_iff_ne_zero.mp h1
    have heq : s.create_sparse_input id shape nnz =
        (Except.ok { idx := s.nodes.length, shape := shape, sparse := some nnz },
         { nodes := s.nodes ++ [{ id := some id, size := shape.size, requires_grad := false, parent_operation := none, own := { idx := s.nodes.length, shape := shape, sparse := some nnz } }],
           roots := insertSet { idx := s.nodes.length, shape := shape, sparse := some nnz } s.roots,
           inputs := insertSet { idx := s.nodes.length, shape := shape, sparse := some nnz } s.inputs,
           weights := s.weights,
           ids := s.ids ++ [id] }) := by
      unfold GraphBuilder.create_sparse_input GraphBuilder.create_node
      simp [hne, NodeData.new, h2, GraphBuilder.create_node_inner, insertSet]
    refine ⟨heq, ?_⟩
    rw [heq]
    exact mem_insertSet.mpr (Or.inr rfl)

/-- Witness for C9 on the empty builder with id "x", shape (4,1): `nnz = 0`
fails and `nnz = 3` registers a sparse input. -/
theorem c9_sparse_input_nnz_witness :
    (GraphBuilder.empty.create_sparse_input "x" (Shape.new 4 1) 0 =
      (Except.error BuilderPanic.invalidNnz, GraphBuilder.empty)) ∧
    (GraphBuilder.empty.create_sparse_input "x" (Shape.new 4 1) 3 =
      (Except.ok { idx := 0, shape := Shape.new 4 1, sparse := some 3 },
       { nodes := [{ id := some "x", size := 4, requires_grad := false, parent_operation := none, own := { idx := 0, shape := Shape.new 4 1, sparse := some 3 } }],
         roots := [{ idx := 0, shape := Shape.new 4 1, sparse := some 3 }],
         inputs := [{ idx := 0, shape := Shape.new 4 1, sparse := some 3 }],
         weights := [],
         ids := ["x"] }) ∧
     { idx := 0, shape := Shape.new 4 1, sparse := some 3 } ∈
       ((GraphBuilder.empty.create_sparse_input "x" (Shape.new 4 1) 3).2).inputs) :=
  ⟨(c9_sparse_input_nnz GraphBuilder.empty "x" (Shape.new 4 1) 3).1,
   (c9_sparse_input_nnz GraphBuilder.empty "x" (Shape.new 4 1) 3).2 (by decide) (by decide)⟩

/-- C8 — `Adam::reset` zeroes exactly the two auxiliary buffers, preserving
their extents and the stored hyperparameters; `Adam::set_params` replaces
exactly the hyperparameters, leaving both auxiliary buffers untouched.
Weight and gradient buffers are not even arguments of either function. -/
theorem c8_reset_set_params_frame (a : Adam) (p : AdamParams) :
    a.reset.params = a.params ∧
    a.reset.momentum.buf = List.replicate a.momentum.buf.length 0.0 ∧
    a.reset.velocity.buf = List.replicate a.velocity.buf.length 0.0 ∧
    a.reset.momentum.size = a.momentum.size ∧
    a.reset.momentum.batchSize = a.momentum.batchSize ∧
    a.reset.velocity.size = a.velocity.size ∧
    a.reset.velocity.batchSize = a.velocity.batchSize ∧
    (a.set_params p).params = p ∧
    (a.set_params p).momentum = a.momentum ∧
    (a.set_params p).velocity = a.velocity :=
  ⟨rfl, rfl, rfl, rfl, rfl, rfl, rfl, rfl, rfl, rfl⟩

/-- Counterexample to C5 as stated: the gradient buffer carries a batch
dimension (`some 2`) and disagrees with the weight buffer on element count
(7 versus 1), yet `Adam::update` passes its precondition checks and runs the
kernel — the code never inspects the gradient buffer's batch dimension or
size. -/
theorem c5_grads_unchecked_counterexample :
    (DenseMatrix.mk 7 (some 2) []).batchSize = some 2 ∧
    (DenseMatrix.mk 7 (some 2) []).size ≠ (DenseMatrix.zeroed 1).size ∧
    ((Adam.new 1 AdamParams.default).update (DenseMatrix.zeroed 1)
      (DenseMatrix.mk 7 (some 2) []) 1.0 1.0 idKernel).isSome = true :=
  ⟨rfl, by decide, rfl⟩

/-- C5 (amended) — `Adam::update` fails, before touching any buffer, exactly
when one of the checks it actually performs fails: the weight, momentum and
velocity buffers must have no batch dimension and the momentum and velocity
buffers must match the weight buffer's element count.  The gradient buffer is
not checked. -/
theorem c5_update_precondition_gate (a : Adam) (weights grads : DenseMatrix)
    (gf lr : Float) (kernel : AdamKernel) :
    a.update weights grads gf lr kernel = none ↔
      ¬(weights.batchSize = none ∧ a.momentum.batchSize = none ∧
        a.velocity.batchSize = none ∧ weights.size = a.momentum.size ∧
        weights.size = a.velocity.size) := by
  unfold Adam.update
  split_ifs <;> simp_all

/-- Witness for C5 (amended): with a momentum buffer of size 2 against a
weight buffer of size 1, `update` fails. -/
theorem c5_update_precondition_gate_witness :
    ({ momentum := DenseMatrix.zeroed 2, velocity := DenseMatrix.zeroed 1,
       params := AdamParams.default } : Adam).update (DenseMatrix.zeroed 1)
      (DenseMatrix.zeroed 1) 1.0 1.0 idKernel = none :=
  (c5_update_precondition_gate _ _ _ _ _ _).mpr (by decide)

/-- Unfolding the cons-cons case of `charListLeB`. -/
theorem charListLeB_cons_iff (c d : Char) (cs ds : List Char) :
    charListLeB (c :: cs) (d :: ds) = true ↔
      (c.toNat < d.toNat ∨ (c.toNat = d.toNat ∧ charListLeB cs ds = true)) := by
  simp only [charListLeB]
  split_ifs with h1 h2
  · simp [h1]
  · simp only [Bool.false_eq_true, false_iff]
    rintro (h | ⟨he, _⟩) <;> omega
  · have he : c.toNat = d.toNat := by omega
    simp [he, h1]

/-- `charListLeB` is total. -/
theorem charListLeB_total (xs : List Char) : ∀ ys, charListLeB xs ys = true ∨ charListLeB ys xs = true := by
  induction xs with
  | nil => intro ys; left; rfl
  | cons c cs ih =>
    intro ys
    cases ys with
    | nil => right; rfl
    | cons d ds =>
      rcases Nat.lt_trichotomy c.toNat d.toNat with h | h | h
      · left; exact (charListLeB_cons_iff c d cs ds).mpr (Or.inl h)
      · rcases ih ds with hr | hr
        · left; exact (charListLeB_cons_iff c d cs ds).mpr (Or.inr ⟨h, hr⟩)
        · right; exact (charListLeB_cons_iff d c ds cs).mpr (Or.inr ⟨h.symm, hr⟩)
      · right; exact (charListLeB_cons_iff d c ds cs).mpr (Or.inl h)

/-- `charListLeB` is transitive. -/
theorem charListLeB_trans (xs : List Char) : ∀ ys zs,
    charListLeB xs ys = true → charListLeB ys zs = true → charListLeB xs zs = true := by
  induction xs with
  | nil => intro ys zs _ _; rfl
  | cons c cs ih =>
    intro ys zs h1 h2
    cases ys with
    | nil => simp [charListLeB] at h1
    | cons d ds =>
      cases zs with
      | nil => simp [charListLeB] at h2
      | cons e es =>
        rcases (charListLeB_cons_iff c d cs ds).mp h1 with hcd | ⟨hcd, hr1⟩ <;>
          rcases (charListLeB_cons_iff d e ds es).mp h2 with hde | ⟨hde, hr2⟩
        · exact (charListLeB_cons_iff c e cs es).mpr (Or.inl (by omega))
        · exact (charListLeB_cons_iff c e cs es).mpr (Or.inl (by omega))
        · exact (charListLeB_cons_iff c e cs es).mpr (Or.inl (by omega))
        · exact (charListLeB_cons_iff c e cs es).mpr (Or.inr ⟨by omega, ih ds es hr1 hr2⟩)

/-- Every pairing the checkpoint loader completes has equal names: the
`assert_eq!(id1, id2)` in the zip loop guards every pair. -/
theorem loadPairs_ok_names (ms : List CheckpointRecord) (vs : List CheckpointRecord)
    (m m' : List (String × Adam)) (h : loadPairs ms vs m = some m') :
    ∀ p ∈ ms.zip vs, p.1.1 = p.2.1 := by
  induction ms generalizing vs m with
  | nil => simp
  | cons x ms ih =>
    obtain ⟨id1, mo⟩ := x
    match vs with
    | [] => simp
    | (id2, ve) :: vs =>
      simp only [loadPairs] at h
      split at h
      · rename_i hid
        split at h
        · rename_i m'' hupd
          intro p hp
          rcases List.mem_cons.mp hp with hp | hp
          · rw [hp]; exact hid
          · exact ih vs m'' h p hp
        · simp at h
      · simp at h

/-- C6 — `Adam::load_from_checkpoint` sorts the records of the momentum file
and of the velocity file by name before pairing them (the sorted lists are
permutations of the parsed records, sorted by identifier), pairs the two
sorted sequences positionally, and any name mismatch within the paired
sequences is fatal: no state is attributed to any weight. -/
theorem c6_checkpoint_sorted_pairing (m : List (String × Adam))
    (mom vel : List CheckpointRecord) :
    (sortByKey mom).Perm mom ∧ (sortByKey vel).Perm vel ∧
    List.Sorted (fun a b : CheckpointRecord => strLeB a.1 b.1 = true) (sortByKey mom) ∧
    List.Sorted (fun a b : CheckpointRecord => strLeB a.1 b.1 = true) (sortByKey vel) ∧
    Adam.load_from_checkpoint m mom vel = loadPairs (sortByKey mom) (sortByKey vel) m ∧
    ((∃ p ∈ (sortByKey mom).zip (sortByKey vel), p.1.1 ≠ p.2.1) →
      Adam.load_from_checkpoint m mom vel = none) := by
  haveI : IsTotal CheckpointRecord (fun a b => strLeB a.1 b.1 = true) :=
    ⟨fun a b => charListLeB_total a.1.data b.1.data⟩
  haveI : IsTrans CheckpointRecord (fun a b => strLeB a.1 b.1 = true) :=
    ⟨fun a b c => charListLeB_trans a.1.data b.1.data c.1.data⟩
  refine ⟨List.perm_insertionSort _ mom, List.perm_insertionSort _ vel,
    List.sorted_insertionSort _ mom, List.sorted_insertionSort _ vel, rfl, ?_⟩
  rintro ⟨p, hp, hne⟩
  cases hres : Adam.load_from_checkpoint m mom vel with
  | none => rfl
  | some m' =>
    exact absurd (loadPairs_ok_names (sortByKey mom) (sortByKey vel) m m' hres p hp) hne

/-- Witness for C6: momentum records named "a","b" against velocity records
named "a","c" — after sorting, position 1 pairs "b" with "c", and loading
fails. -/
theorem c6_checkpoint_sorted_pairing_witness :
    (∃ p ∈ (sortByKey [("a", ([] : List Float)), ("b", [])]).zip
        (sortByKey [("a", ([] : List Float)), ("c", [])]), p.1.1 ≠ p.2.1) ∧
    Adam.load_from_checkpoint [("a", Adam.new 1 AdamParams.default), ("b", Adam.new 1 AdamParams.default)]
      [("a", []), ("b", [])] [("a", []), ("c", [])] = none :=
  ⟨by decide,
   (c6_checkpoint_sorted_pairing [("a", Adam.new 1 AdamParams.default), ("b", Adam.new 1 AdamParams.default)]
      [("a", []), ("b", [])] [("a", []), ("c", [])]).2.2.2.2.2 (by decide)⟩

/-- Arena records' own indices are below the arena length. -/
theorem own_idx_lt (s : GraphBuilder) (hInv : InvRoots s) :
    ∀ d ∈ s.nodes, d.own.idx < s.nodes.length := by
  obtain ⟨h1, h2, h3⟩ := hInv
  intro d hd
  obtain ⟨i, hlen, hi⟩ := List.mem_iff_getElem.mp hd
  have hown := h1 i d (by rw [List.getElem?_eq_getElem hlen, hi])
  omega

/-- A node whose index is at or beyond the arena length has no consumer. -/
theorem not_consumed_of_len_le (s : GraphBuilder) (hInv : InvRoots s) (n : Node)
    (hn : s.nodes.length ≤ n.idx) : ¬ consumed s n := by
  rintro ⟨d, hd, hc⟩
  have hlt := hInv.2.1 d hd n hc
  have hown := own_idx_lt s hInv d hd
  exact absurd hn (by omega)

/-- `create_node_inner` preserves the root-set invariant whenever the parent
operation (if any) only references previously handed-out nodes. -/
theorem InvRoots_create_node_inner (s : GraphBuilder) (data : NodeData) (sh : Shape)
    (sp : Option Nat) (hInv : InvRoots s)
    (hok : ∀ op, data.parent_operation = some op → ∀ p ∈ op.nodes, p.idx < s.nodes.length) :
    InvRoots ((s.create_node_inner data sh sp).2) := by
  obtain ⟨h1, h2, h3⟩ := hInv
  show InvRoots
    { s with
      nodes := s.nodes ++ [{ data with own := { idx := s.nodes.length, shape := sh, sparse := sp } }],
      roots := insertSet { idx := s.nodes.length, shape := sh, sparse := sp }
        (match data.parent_operation with
         | some op => op.nodes.foldl (fun acc p => removeSet p acc) s.roots
         | none => s.roots) }
  rcases hpar : data.parent_operation with _ | op
  all_goals simp only [hpar]
  · -- leaf insertion: no operand is consumed
    refine ⟨?_, ?_, ?_⟩
    · intro i d hget
      dsimp only at hget
      rcases Nat.lt_trichotomy i s.nodes.length with hi | hi | hi
      · rw [List.getElem?_append_left hi] at hget
        exact h1 i d hget
      · subst hi
        rw [List.getElem?_concat_length] at hget
        cases hget
        rfl
      · rw [List.getElem?_eq_none (by simp; omega)] at hget
        cases hget
    · intro d hd p hc
      rcases List.mem_append.mp hd with hd | hd
      · exact h2 d hd p hc
      · rw [List.mem_singleton] at hd
        subst hd
        unfold consumes at hc
        simp only [hpar] at hc
    · intro n
      rw [mem_insertSet]
      simp only [ownNode, consumed, List.mem_append, List.mem_singleton]
      constructor
      · rintro (hn | hn)
        · obtain ⟨⟨d, hd, hdn⟩, hnc⟩ := (h3 n).mp hn
          refine ⟨⟨d, Or.inl hd, hdn⟩, ?_⟩
          rintro ⟨e, he, hce⟩
          rcases he with he | he
          · exact hnc ⟨e, he, hce⟩
          · subst he
            unfold consumes at hce
            simp only [hpar] at hce
        · subst hn
          refine ⟨⟨_, Or.inr rfl, rfl⟩, ?_⟩
          rintro ⟨e, he, hce⟩
          rcases he with he | he
          · exact not_consumed_of_len_le s ⟨h1, h2, h3⟩ _ (Nat.le_refl _) ⟨e, he, hce⟩
          · subst he
            unfold consumes at hce
            simp only [hpar] at hce
      · rintro ⟨⟨d, hd, hdn⟩, hnc⟩
        rcases hd with hd | hd
        · left
          refine (h3 n).mpr ⟨⟨d, hd, hdn⟩, ?_⟩
          rintro ⟨e, he, hce⟩
          exact hnc ⟨e, Or.inl he, hce⟩
        · subst hd
          right
          exact hdn.symm
  · -- operation insertion: operands leave the root set, the new node enters
    have hoknodes := hok op hpar
    refine ⟨?_, ?_, ?_⟩
    · intro i d hget
      dsimp only at hget
      rcases Nat.lt_trichotomy i s.nodes.length with hi | hi | hi
      · rw [List.getElem?_append_left hi] at hget
        exact h1 i d hget
      · subst hi
        rw [List.getElem?_concat_length] at hget
        cases hget
        rfl
      · rw [List.getElem?_eq_none (by simp; omega)] at hget
        cases hget
    · intro d hd p hc
      rcases List.mem_append.mp hd with hd | hd
      · exact h2 d hd p hc
      · rw [List.mem_singleton] at hd
        subst hd
        unfold consumes at hc
        simp only [hpar] at hc
        exact hoknodes p hc
    · intro n
      rw [mem_insertSet, mem_foldl_removeSet]
      simp only [ownNode, consumed, List.mem_append, List.mem_singleton]
      constructor
      · rintro (⟨hn, hnop⟩ | hn)
        · obtain ⟨⟨d, hd, hdn⟩, hnc⟩ := (h3 n).mp hn
          refine ⟨⟨d, Or.inl hd, hdn⟩, ?_⟩
          rintro ⟨e, he, hce⟩
          rcases he with he | he
          · exact hnc ⟨e, he, hce⟩
          · subst he
            unfold consumes at hce
            simp only [hpar] at hce
            exact hnop hce
        · subst hn
          refine ⟨⟨_, Or.inr rfl, rfl⟩, ?_⟩
          rintro ⟨e, he, hce⟩
          rcases he with he | he
          · exact not_consumed_of_len_le s ⟨h1, h2, h3⟩ _ (Nat.le_refl _) ⟨e, he, hce⟩
          · subst he
            unfold consumes at hce
            simp only [hpar] at hce
            exact absurd (hoknodes _ hce) (by simp)
      · rintro ⟨⟨d, hd, hdn⟩, hnc⟩
        rcases hd with hd | hd
        · left
          constructor
          · refine (h3 n).mpr ⟨⟨d, hd, hdn⟩, ?_⟩
            rintro ⟨e, he, hce⟩
            exact hnc ⟨e, Or.inl he, hce⟩
          · intro hnop
            refine hnc ⟨_, Or.inr rfl, ?_⟩
            unfold consumes
            simp only [hpar]
            exact hnop
        · subst hd
          right
          exact hdn.symm

/-- `create_node` preserves the root-set invariant (the id bookkeeping does
not touch nodes or roots). -/
theorem InvRoots_create_node (s : GraphBuilder) (data : NodeData) (sh : Shape)
    (sp : Option Nat) (hInv : InvRoots s)
    (hok : ∀ op, data.parent_operation = some op → ∀ p ∈ op.nodes, p.idx < s.nodes.length) :
    InvRoots ((s.create_node data sh sp).2) := by
  unfold GraphBuilder.create_node
  split
  · rename_i id heq
    split
    · exact hInv
    · exact InvRoots_create_node_inner { s with ids := s.ids ++ [id] } data sh sp hInv hok
  · exact InvRoots_create_node_inner s data sh sp hInv hok

/-- Every single step preserves the root-set invariant. -/
theorem InvRoots_applyStep (s : GraphBuilder) (st : Step) (hInv : InvRoots s)
    (hok : stepOkB s st = true) : InvRoots (applyStep s st) := by
  cases st with
  | dense id shape =>
    simp only [applyStep]
    unfold GraphBuilder.create_dense_input
    have h := InvRoots_create_node s (NodeData.new (some id) none shape.size false none)
      shape none hInv (by intro op hop; cases hop)
    cases hcn : s.create_node (NodeData.new (some id) none shape.size false none) shape none with
    | mk r s₁ =>
      rw [hcn] at h
      cases r with
      | ok n => exact h
      | error e => exact h
  | sparse id shape nnz =>
    simp only [applyStep]
    unfold GraphBuilder.create_sparse_input
    split
    · exact hInv
    · have h := InvRoots_create_node s (NodeData.new (some id) none shape.size false none)
        shape (some nnz) hInv (by intro op hop; cases hop)
      cases hcn : s.create_node (NodeData.new (some id) none shape.size false none) shape (some nnz) with
      | mk r s₁ =>
        rw [hcn] at h
        cases r with
        | ok n => exact h
        | error e => exact h
  | weights id shape =>
    simp only [applyStep]
    unfold GraphBuilder.create_weights
    have h := InvRoots_create_node s (NodeData.new (some id) none shape.size true none)
      shape none hInv (by intro op hop; cases hop)
    cases hcn : s.create_node (NodeData.new (some id) none shape.size true none) shape none with
    | mk r s₁ =>
      rw [hcn] at h
      cases r with
      | ok n => exact h
      | error e => exact h
  | oper op rg =>
    simp only [applyStep]
    unfold GraphBuilder.create_result_of_operation
    split
    · rename_i sh hsh
      refine InvRoots_create_node s (NodeData.new none (some op) sh.size rg none) sh none hInv ?_
      intro op' hop' p hp
      cases hop'
      have hall : ∀ x ∈ op.nodes, x.idx < s.nodes.length := by simpa [stepOkB] using hok
      exact hall p hp
    · exact hInv

/-- The empty builder satisfies the root-set invariant. -/
theorem InvRoots_empty : InvRoots GraphBuilder.empty := by
  refine ⟨?_, ?_, ?_⟩ <;> simp [GraphBuilder.empty, ownNode, consumed]

/-- The root-set invariant holds after any well-formed step sequence. -/
theorem InvRoots_runSteps (s : GraphBuilder) (steps : List Step) (hInv : InvRoots s)
    (hva : validRunB s steps = true) : InvRoots (runSteps s steps) := by
  induction steps generalizing s with
  | nil => exact hInv
  | cons st rest ih =>
    simp only [validRunB, Bool.and_eq_true] at hva
    simp only [runSteps, List.foldl_cons]
    exact ih (applyStep s st) (InvRoots_applyStep s st hInv hva.1) hva.2

/-- Each step only appends to the arena: no slot is ever reused or removed. -/
theorem nodes_prefix_applyStep (s : GraphBuilder) (st : Step) :
    ∃ l, (applyStep s st).nodes = s.nodes ++ l := by
  cases st with
  | dense id shape =>
    simp only [applyStep]
    unfold GraphBuilder.create_dense_input
    cases hcn : s.create_node (NodeData.new (some id) none shape.size false none) shape none with
    | mk r s₁ =>
      have hn : ∃ l, s₁.nodes = s.nodes ++ l := by
        unfold GraphBuilder.create_node at hcn
        split at hcn
        · split at hcn <;> cases hcn
          · exact ⟨[], by simp⟩
          · exact ⟨_, rfl⟩
        · cases hcn
          exact ⟨_, rfl⟩
      cases r with
      | ok n => exact hn
      | error e => exact hn
  | sparse id shape nnz =>
    simp only [applyStep]
    unfold GraphBuilder.create_sparse_input
    split
    · exact ⟨[], by simp⟩
    · cases hcn : s.create_node (NodeData.new (some id) none shape.size false none) shape (some nnz) with
      | mk r s₁ =>
        have hn : ∃ l, s₁.nodes = s.nodes ++ l := by
          unfold GraphBuilder.create_node at hcn
          split at hcn
          · split at hcn <;> cases hcn
            · exact ⟨[], by simp⟩
            · exact ⟨_, rfl⟩
          · cases hcn
            exact ⟨_, rfl⟩
        cases r with
        | ok n => exact hn
        | error e => exact hn
  | weights id shape =>
    simp only [applyStep]
    unfold GraphBuilder.create_weights
    cases hcn : s.create_node (NodeData.new (some id) none shape.size true none) shape none with
    | mk r s₁ =>
      have hn : ∃ l, s₁.nodes = s.nodes ++ l := by
        unfold GraphBuilder.create_node at hcn
        split at hcn
        · split at hcn <;> cases hcn
          · exact ⟨[], by simp⟩
          · exact ⟨_, rfl⟩
        · cases hcn
          exact ⟨_, rfl⟩
      cases r with
      | ok n => exact hn
      | error e => exact hn
  | oper op rg =>
    simp only [applyStep]
    unfold GraphBuilder.create_result_of_operation
    split
    · exact ⟨_, rfl⟩
    · exact ⟨[], by simp⟩

/-- Once a node has a consumer it keeps it through any later step. -/
theorem consumed_applyStep_mono (s : GraphBuilder) (st : Step) (n : Node)
    (h : consumed s n) : consumed (applyStep s st) n := by
  obtain ⟨d, hd, hc⟩ := h
  obtain ⟨l, hl⟩ := nodes_prefix_applyStep s st
  exact ⟨d, by rw [hl]; exact List.mem_append.mpr (Or.inl hd), hc⟩

/-- Once in the arena, always in the arena. -/
theorem ownNode_applyStep_mono (s : GraphBuilder) (st : Step) (n : Node)
    (h : ownNode s n) : ownNode (applyStep s st) n := by
  obtain ⟨d, hd, hdn⟩ := h
  obtain ⟨l, hl⟩ := nodes_prefix_applyStep s st
  exact ⟨d, by rw [hl]; exact List.mem_append.mpr (Or.inl hd), hdn⟩

/-- A consumed arena node never re-enters the root set, over any further
well-formed step sequence. -/
theorem not_root_forever (s : GraphBuilder) (steps : List Step) (hInv : InvRoots s)
    (hva : validRunB s steps = true) (n : Node) (hown : ownNode s n)
    (hnr : n ∉ s.roots) : n ∉ (runSteps s steps).roots := by
  induction steps generalizing s with
  | nil => exact hnr
  | cons st rest ih =>
    simp only [validRunB, Bool.and_eq_true] at hva
    simp only [runSteps, List.foldl_cons]
    have hcons : consumed s n := by
      by_contra hc
      exact hnr ((hInv.2.2 n).mpr ⟨hown, hc⟩)
    have hInv' := InvRoots_applyStep s st hInv hva.1
    refine ih (applyStep s st) hInv' hva.2 (ownNode_applyStep_mono s st n hown) ?_
    intro hmem
    exact (((hInv'.2.2 n).mp hmem).2) (consumed_applyStep_mono s st n hcons)

/-- C2 — after any well-formed sequence of node creations and operation
applications, the root set holds exactly the arena nodes without a consumer
so far; a successful operation application removes every operand node from
the root set and adds the produced node to it; and an arena node that is out
of the root set never re-enters it under any further well-formed steps. -/
theorem c2_root_set_exact (steps : List Step)
    (hva : validRunB GraphBuilder.empty steps = true) :
    (∀ n, n ∈ (runSteps GraphBuilder.empty steps).roots ↔
      (ownNode (runSteps GraphBuilder.empty steps) n ∧
       ¬ consumed (runSteps GraphBuilder.empty steps) n)) ∧
    (∀ op rg sh, Operation.output_shape op = Except.ok sh →
      stepOkB (runSteps GraphBuilder.empty steps) (Step.oper op rg) = true →
      (∀ p ∈ op.nodes,
        p ∉ (applyStep (runSteps GraphBuilder.empty steps) (Step.oper op rg)).roots) ∧
      ({ idx := (runSteps GraphBuilder.empty steps).nodes.length, shape := sh, sparse := none } : Node) ∈
        (applyStep (runSteps GraphBuilder.empty steps) (Step.oper op rg)).roots) ∧
    (∀ n more, ownNode (runSteps GraphBuilder.empty steps) n →
      n ∉ (runSteps GraphBuilder.empty steps).roots →
      validRunB (runSteps GraphBuilder.empty steps) more = true →
      n ∉ (runSteps (runSteps GraphBuilder.empty steps) more).roots) := by
  have hS := InvRoots_runSteps GraphBuilder.empty steps InvRoots_empty hva
  refine ⟨hS.2.2, ?_, ?_⟩
  · intro op rg sh hsh hok
    set S := runSteps GraphBuilder.empty steps with hSdef
    have hoknodes : ∀ x ∈ op.nodes, x.idx < S.nodes.length := by simpa [stepOkB] using hok
    have happ : applyStep S (Step.oper op rg) =
        (S.create_node_inner (NodeData.new none (some op) sh.size rg none) sh none).2 := by
      simp only [applyStep]
      unfold GraphBuilder.create_result_of_operation
      rw [hsh]
      rfl
    have hInv' := InvRoots_create_node_inner S (NodeData.new none (some op) sh.size rg none)
      sh none hS (by intro op' hop' p hp; cases hop'; exact hoknodes p hp)
    rw [happ]
    constructor
    · intro p hp hmem
      have hcons : consumed
          ((S.create_node_inner (NodeData.new none (some op) sh.size rg none) sh none).2) p := by
        refine ⟨{ NodeData.new none (some op) sh.size rg none with
          own := { idx := S.nodes.length, shape := sh, sparse := none } }, ?_, ?_⟩
        · exact List.mem_append.mpr (Or.inr (List.mem_singleton.mpr rfl))
        · exact hp
      exact ((hInv'.2.2 p).mp hmem).2 hcons
    · refine (hInv'.2.2 _).mpr
        ⟨⟨{ NodeData.new none (some op) sh.size rg none with
            own := { idx := S.nodes.length, shape := sh, sparse := none } },
          List.mem_append.mpr (Or.inr (List.mem_singleton.mpr rfl)), rfl⟩, ?_⟩
      rintro ⟨d, hd, hc⟩
      rcases List.mem_append.mp hd with hd | hd
      · have h1 : S.nodes.length < d.own.idx := hS.2.1 d hd _ hc
        have h2 := own_idx_lt S hS d hd
        omega
      · rw [List.mem_singleton] at hd
        subst hd
        have hcp : ({ idx := S.nodes.length, shape := sh, sparse := none } : Node) ∈ op.nodes := hc
        have := hoknodes _ hcp
        simp at this
  · intro n more hown hnr hva'
    exact not_root_forever (runSteps GraphBuilder.empty steps) more hS hva' n hown hnr

/-- Witness for C2: the two-step build (one weight, one reducing operation). -/
theorem c2_root_set_exact_witness :
    validRunB GraphBuilder.empty scalarLossSteps = true ∧
    ((∀ n, n ∈ (runSteps GraphBuilder.empty scalarLossSteps).roots ↔
      (ownNode (runSteps GraphBuilder.empty scalarLossSteps) n ∧
       ¬ consumed (runSteps GraphBuilder.empty scalarLossSteps) n)) ∧
    (∀ op rg sh, Operation.output_shape op = Except.ok sh →
      stepOkB (runSteps GraphBuilder.empty scalarLossSteps) (Step.oper op rg) = true →
      (∀ p ∈ op.nodes,
        p ∉ (applyStep (runSteps GraphBuilder.empty scalarLossSteps) (Step.oper op rg)).roots) ∧
      ({ idx := (runSteps GraphBuilder.empty scalarLossSteps).nodes.length, shape := sh, sparse := none } : Node) ∈
        (applyStep (runSteps GraphBuilder.empty scalarLossSteps) (Step.oper op rg)).roots) ∧
    (∀ n more, ownNode (runSteps GraphBuilder.empty scalarLossSteps) n →
      n ∉ (runSteps GraphBuilder.empty scalarLossSteps).roots →
      validRunB (runSteps GraphBuilder.empty scalarLossSteps) more = true →
      n ∉ (runSteps (runSteps GraphBuilder.empty scalarLossSteps) more).roots)) :=
  ⟨by decide, c2_root_set_exact scalarLossSteps (by decide)⟩

/-- With a device that always allocates, the allocation loop succeeds. -/
theorem allocAllTensors_isSome (alloc : NodeData → Option Tensor)
    (h : ∀ d, (alloc d).isSome = true) (l : List NodeData) :
    (allocAllTensors alloc l).isSome = true := by
  induction l with
  | nil => rfl
  | cons d ds ih =>
    unfold allocAllTensors
    rcases hd : alloc d with _ | t
    · have := h d
      rw [hd] at this
      simp at this
    · rcases hds : allocAllTensors alloc ds with _ | ts
      · rw [hds] at ih
        simp at ih
      · simp [hd, hds]

/-- When every registered node resolves to an arena record carrying an id,
the id→Node map construction succeeds. -/
theorem collectNamed_isSome (s : GraphBuilder) (l : List Node)
    (h : ∀ n ∈ l, ((s.nodes[n.idx]?).bind NodeData.id).isSome = true) :
    (s.collectNamed l).isSome = true := by
  induction l with
  | nil => rfl
  | cons n ns ih =>
    unfold GraphBuilder.collectNamed
    rcases hn : (s.nodes[n.idx]?).bind NodeData.id with _ | id
    · have := h n (List.mem_cons_self n ns)
      rw [hn] at this
      simp at this
    · rcases hns : s.collectNamed ns with _ | rest
      · have := ih (fun m hm => h m (List.mem_cons_of_mem n hm))
        rw [hns] at this
        simp at this
      · simp [hn, hns]

/-- C1 — with a functioning device (every tensor allocation succeeds) and the
by-construction guarantee that registered inputs and weights resolve to arena
records carrying an id, `build` returns a Graph exactly when: the root set
holds exactly one node, that root's arena record has `requires_grad = true`,
the root is not a registered weight, its shape is the scalar (1,1) and its
element count is 1.  On any violation it returns an error and no Graph. -/
theorem c1_build_gate (s : GraphBuilder) (alloc : NodeData → Option Tensor)
    (halloc : ∀ d, (alloc d).isSome = true)
    (hin : ∀ n ∈ s.inputs, ((s.nodes[n.idx]?).bind NodeData.id).isSome = true)
    (hw : ∀ n ∈ s.weights, ((s.nodes[n.idx]?).bind NodeData.id).isSome = true) :
    (∃ g, s.build alloc = Except.ok g) ↔
      (∃ root, s.roots = [root] ∧ ∃ d, s.nodes[root.idx]? = some d ∧
        d.requires_grad = true ∧ root ∉ s.weights ∧ root.shape = Shape.new 1 1 ∧
        d.size = 1) := by
  constructor
  · rintro ⟨g, hg⟩
    unfold GraphBuilder.build at hg
    split at hg
    · rename_i root hroots
      split at hg
      · rename_i data hdata
        split at hg
        · rename_i hrg
          split at hg
          · simp at hg
          · rename_i hwgt
            split at hg
            · rename_i hsh
              split at hg
              · rename_i hsz
                exact ⟨root, hroots, data, hdata, hrg, hwgt, hsh, hsz⟩
              · simp at hg
            · simp at hg
        · simp at hg
      · simp at hg
    · simp at hg
  · rintro ⟨root, hroots, d, hget, hrg, hwgt, hsh, hsz⟩
    unfold GraphBuilder.build
    obtain ⟨ts, hts⟩ := Option.isSome_iff_exists.mp (allocAllTensors_isSome alloc halloc s.nodes)
    obtain ⟨ins, hins⟩ := Option.isSome_iff_exists.mp (collectNamed_isSome s s.inputs hin)
    obtain ⟨ws, hws⟩ := Option.isSome_iff_exists.mp (collectNamed_isSome s s.weights hw)
    split
    · rename_i root' heq
      rw [hroots] at heq
      injection heq with h1 h2
      subst h1
      simp [hget, hrg, hwgt, hsh, hsz, hts, hins, hws]
    · rename_i rs hne
      exact absurd hroots (hne root)

/-- Witness for C1: the two-step scalar-loss build satisfies the gate and
`build` succeeds with the always-allocating device. -/
theorem c1_build_gate_witness :
    (∀ d, (allocAlways d).isSome = true) ∧
    (∀ n ∈ (runSteps GraphBuilder.empty scalarLossSteps).inputs,
      (((runSteps GraphBuilder.empty scalarLossSteps).nodes[n.idx]?).bind NodeData.id).isSome = true) ∧
    (∀ n ∈ (runSteps GraphBuilder.empty scalarLossSteps).weights,
      (((runSteps GraphBuilder.empty scalarLossSteps).nodes[n.idx]?).bind NodeData.id).isSome = true) ∧
    (∃ g, (runSteps GraphBuilder.empty scalarLossSteps).build allocAlways = Except.ok g) :=
  ⟨fun _ => rfl, by decide, by decide,
   (c1_build_gate (runSteps GraphBuilder.empty scalarLossSteps) allocAlways
      (fun _ => rfl) (by decide) (by decide)).mpr
    ⟨{ idx := 1, shape := Shape.new 1 1, sparse := none }, rfl,
     { id := none, size := 1, requires_grad := true,
       parent_operation := some (Operation.ReduceAcrossBatch
         { idx := 0, shape := Shape.new 1 1, sparse := none }),
       own := { idx := 1, shape := Shape.new 1 1, sparse := none } },
     rfl, rfl, by decide, rfl, rfl⟩⟩

end Bullet
